import Mathlib

/-!
Verification of the PUBG tournament leaderboard scoring/aggregation core.

This development shallowly embeds, in Lean, the scoring and aggregation
pipeline of the repository:

* the placement-points table, as implemented both in the TypeScript edge
  function (`supabase/functions/analyze-screenshot/index.ts`,
  `PLACEMENT_POINTS` with `PLACEMENT_POINTS[placement] || 0`) and in the SQL
  helper (`public.calculate_placement_points`);
* the team-stats recomputation, as implemented in the SQL function
  (`public.recalculate_team_stats`), in the edge function's reduce-based
  recompute, and in the admin component `ScreenshotVerification.tsx`;
* the database trigger protocol (`tg_recalculate_team_stats`, an
  AFTER INSERT OR UPDATE OR DELETE row trigger on `match_screenshots`);
* the AI extraction adapter's retry loop (`analyzeWithRetry`) and the
  persist step that follows it;
* the player upload flow (`handleFileUpload`): screenshot-count limit and
  the insert-before-analyze ordering.

JavaScript null/undefined coalescing (`x || 0`) on numeric fields is
modelled by `Option.getD 0` (for `x = 0` both give `0`).
-/

/-- A row of the `match_screenshots` table.  `placement`, `kills`, `points`
are nullable integers; `screenshot_url` is null for manual entries. -/
structure MatchRow where
  id : Nat
  teamId : Nat
  placement : Option Int
  kills : Option Int
  points : Option Int
  screenshotUrl : Option String
deriving Repr, DecidableEq

/-- The six derived fields of a `teams` row, as written by every recompute
path. -/
structure TeamStats where
  total_points : Int
  placement_points : Int
  kill_points : Int
  total_kills : Int
  matches_played : Nat
  first_place_wins : Nat
deriving Repr, DecidableEq

/-- JavaScript `x || 0` on a nullable number: null/undefined become 0 and a
stored 0 stays 0, so it coincides with `Option.getD 0`. -/
def jsOr0 (o : Option Int) : Int := o.getD 0

/-- The edge function's placement table lookup
`PLACEMENT_POINTS[placement] || 0` over the record
`{1: 10, 2: 6, 3: 5, 4: 4, 5: 3, 6: 2, 7: 1, 8: 1}`
(`analyze-screenshot/index.ts`): any key outside 1..8 yields `undefined`,
hence 0. -/
def PLACEMENT_POINTS_TS (p : Int) : Int :=
  if p = 1 then 10
  else if p = 2 then 6
  else if p = 3 then 5
  else if p = 4 then 4
  else if p = 5 then 3
  else if p = 6 then 2
  else if p = 7 then 1
  else if p = 8 then 1
  else 0

/-- The SQL helper `public.calculate_placement_points(placement integer)`:
`CASE placement WHEN 1 THEN 10 ... WHEN 8 THEN 1 ELSE 0 END`.  A NULL
argument matches no `WHEN`, so it falls to `ELSE 0`. -/
def calculate_placement_points : Option Int → Int
  | none => 0
  | some p =>
    if p = 1 then 10
    else if p = 2 then 6
    else if p = 3 then 5
    else if p = 4 then 4
    else if p = 5 then 3
    else if p = 6 then 2
    else if p = 7 then 1
    else if p = 8 then 1
    else 0

/-- Modelled from the spec: the module `@/types/tournament` (not present in
the sources; only its import sites are) exports the kill-point multiplier
`KILL_POINTS` — "each kill worth exactly 1 point". -/
def KILL_POINTS : Int := 1

/-- Modelled from the spec: the module `@/types/tournament` (not present in
the sources) exports `calculatePoints(placement, kills)` =
`placementPoints(placement) + kills * KILL_POINTS`, with the same
placement table as every other call site ("a single source of truth"). -/
def calculatePoints (placement kills : Int) : Int :=
  PLACEMENT_POINTS_TS placement + kills * KILL_POINTS

/-- The SQL recompute `public.recalculate_team_stats(p_team_id)`, applied
to the list of `match_screenshots` rows of that team:
`placement_points = SUM(calculate_placement_points(placement))`,
`total_kills = SUM(COALESCE(kills, 0))`, `matches_played = COUNT(*)`,
`first_place_wins = SUM(CASE WHEN placement = 1 THEN 1 ELSE 0 END)`
(a NULL placement compares as unknown, contributing the ELSE 0),
`kill_points := total_kills`,
`total_points := placement_points + kill_points`. -/
def recalculate_team_stats (rs : List MatchRow) : TeamStats :=
  let v_placement_points := (rs.map (fun ms => calculate_placement_points ms.placement)).sum
  let v_total_kills := (rs.map (fun ms => (ms.kills.getD 0))).sum
  let v_matches := rs.length
  let v_wwcd := (rs.filter (fun ms => ms.placement == some 1)).length
  let v_kill_points := v_total_kills
  { total_points := v_placement_points + v_kill_points
    placement_points := v_placement_points
    kill_points := v_kill_points
    total_kills := v_total_kills
    matches_played := v_matches
    first_place_wins := v_wwcd }

/-- The edge function's team recompute (`analyze-screenshot/index.ts`,
after fetching all of the team's rows):
`total_points = reduce (+ (s.points || 0))`,
`placement_points = reduce (+ PLACEMENT_POINTS[s.placement || 0] || 0)`,
`total_kills = reduce (+ (s.kills || 0))`, `kill_points = total_kills`,
`matches_played = length`,
`first_place_wins = (filter (s.placement === 1)).length`. -/
def edgeRecalcTeamStats (rs : List MatchRow) : TeamStats :=
  let totalTeamPoints := (rs.map (fun s => jsOr0 s.points)).sum
  let totalPlacementPoints := (rs.map (fun s => PLACEMENT_POINTS_TS (jsOr0 s.placement))).sum
  let totalKills := (rs.map (fun s => jsOr0 s.kills)).sum
  { total_points := totalTeamPoints
    placement_points := totalPlacementPoints
    kill_points := totalKills
    total_kills := totalKills
    matches_played := rs.length
    first_place_wins := (rs.filter (fun s => s.placement == some 1)).length }

/-- The admin component's team recompute (`ScreenshotVerification.tsx`,
`handleUpdateScreenshot` / `handleManualEntry`): identical reduce shape to
the edge function, with the placement sum written as
`calculatePoints(s.placement || 0, 0)`. -/
def adminRecalcTeamStats (rs : List MatchRow) : TeamStats :=
  let totalPoints := (rs.map (fun s => jsOr0 s.points)).sum
  let placementPoints := (rs.map (fun s => calculatePoints (jsOr0 s.placement) 0)).sum
  let totalKills := (rs.map (fun s => jsOr0 s.kills)).sum
  { total_points := totalPoints
    placement_points := placementPoints
    kill_points := totalKills
    total_kills := totalKills
    matches_played := rs.length
    first_place_wins := (rs.filter (fun s => s.placement == some 1)).length }

/-- The spec's own rendering of the placement table,
`{1:10, 2:6, 3:5, 4:4, 5:3, 6:2, 7:1, 8:1}.get(p, 0)`, written as an
association-list lookup with default 0 (refinement comparator for the two
implementations). -/
def specPlacementTable (p : Int) : Int :=
  (([(1, 10), (2, 6), (3, 5), (4, 4), (5, 3), (6, 2), (7, 1), (8, 1)] :
      List (Int × Int)).lookup p).getD 0

/-! ## Extraction adapter: `analyzeWithRetry` -/

/-- Outcome of one attempt of the AI call inside `analyzeWithRetry`:
either a 2xx response with a tool call carrying `{placement, kills}`, a
2xx response without a tool call, a non-2xx HTTP status, or a thrown
network/parse exception. -/
inductive AIOutcome where
  | success (placement kills : Int)
  | noToolCall
  | http (status : Nat)
  | netError
deriving Repr, DecidableEq

/-- The error value `analyzeWithRetry` keeps in `lastError` for a failed
attempt. -/
inductive AIError where
  | noToolCall
  | http (status : Nat)
  | net
  | generic
deriving Repr, DecidableEq

/-- `true` when `analyzeWithRetry` classifies the status as temporary:
`status === 429 || status === 402 || status >= 500`. -/
def retryableStatus (s : Nat) : Bool :=
  s == 429 || s == 402 || 500 ≤ s

def AIOutcome.isSuccess : AIOutcome → Bool
  | .success _ _ => true
  | _ => false

/-- The error recorded for a failed attempt.  In the source, the
retryable-status branch assigns `lastError` directly and every other
failure (non-retryable status, missing tool call, network/parse throw) is
caught by the `catch` around the whole attempt body — so every failure,
retryable or not, ends up in `lastError` and falls through to the backoff. -/
def errOfOutcome : AIOutcome → AIError
  | .success _ _ => .generic
  | .noToolCall => .noToolCall
  | .http s => .http s
  | .netError => .net

/-- Result of a whole `analyzeWithRetry` call: how many attempts the loop
made, the backoff delays (ms) it slept through in order, and the final
value or the surfaced error. -/
structure RetryOutcome where
  attemptsMade : Nat
  delays : List Nat
  result : Except AIError (Int × Int)
deriving Repr

/-- The `while (attempt < maxRetries)` loop of `analyzeWithRetry`,
parameterised by the outcome of each (0-indexed) attempt.  A successful
attempt returns at once; any failed attempt records `lastError`, then the
loop increments `attempt` and sleeps `500 * attempt` ms (so the sleep also
happens after the final failed attempt).  When the loop exits, the last
error is thrown (`lastError ?? new Error("AI analysis failed after
retries")`). -/
def runAttempts (outcomes : Nat → AIOutcome) :
    Nat → Nat → Option AIError → RetryOutcome
  | _attempt, 0, lastError =>
    { attemptsMade := 0, delays := [], result := .error (lastError.getD .generic) }
  | attempt, remaining + 1, _lastError =>
    match outcomes attempt with
    | .success p k => { attemptsMade := 1, delays := [], result := .ok (p, k) }
    | o =>
      let rest := runAttempts outcomes (attempt + 1) remaining (some (errOfOutcome o))
      { attemptsMade := rest.attemptsMade + 1
        delays := 500 * (attempt + 1) :: rest.delays
        result := rest.result }

/-- `analyzeWithRetry(imageUrl, maxRetries = 3)`, as a function of the
per-attempt outcomes. -/
def analyzeWithRetry (outcomes : Nat → AIOutcome) (maxRetries : Nat := 3) : RetryOutcome :=
  runAttempts outcomes 0 maxRetries none

/-! ## Persist steps after extraction -/

/-- The zod schema of the admin edit dialog (`ScreenshotVerification.tsx`,
`handleUpdateScreenshot`): `placement` an integer in [1, 18], `kills` an
integer in [0, 50]. -/
def matchDataSchemaOK (placement kills : Int) : Bool :=
  1 ≤ placement && placement ≤ 18 && 0 ≤ kills && kills ≤ 50

/-- The edge function's persist step for an extracted pair: it computes
`points = (PLACEMENT_POINTS[placement] || 0) + kills` and issues the
record update unconditionally — there is no range check between
`analyzeWithRetry` returning and the `update` call. -/
def edgeFnPersistDecision (placement kills : Int) : Option (Int × Int × Int) :=
  some (placement, kills, PLACEMENT_POINTS_TS placement + kills)

/-- Field update applied to the match row by the edge function's persist
step. -/
def edgePersistUpdate (placement kills : Int) (r : MatchRow) : MatchRow :=
  { r with
    placement := some placement
    kills := some kills
    points := some (PLACEMENT_POINTS_TS placement + kills) }

/-- The admin edit persist decision (`handleUpdateScreenshot`): the zod
schema is checked first and a validation failure returns before any write;
on success the row is written with `points = calculatePoints(placement,
kills)`. -/
def adminEditPersist (placement kills : Int) : Option (Int × Int × Int) :=
  if matchDataSchemaOK placement kills then
    some (placement, kills, calculatePoints placement kills)
  else
    none

/-- The zod schema of the admin "Add Manual Entry" dialog
(`ScreenshotVerification.tsx`, `handleManualEntry`): `matchNumber` an
integer in [1, 100], `placement` an integer in [1, 18], `kills` an
integer in [0, 50]. -/
def manualEntrySchemaOK (matchNumber placement kills : Int) : Bool :=
  1 ≤ matchNumber && matchNumber ≤ 100 &&
    1 ≤ placement && placement ≤ 18 && 0 ≤ kills && kills ≤ 50

/-- The persist decision of `handleManualEntry` in
`ScreenshotVerification.tsx`: the zod schema is checked first and a
validation failure returns before any insert; on success the row is
inserted with `points = calculatePoints(placement, kills)`. -/
def verifManualEntryPersist (matchNumber placement kills : Int) :
    Option (Int × Int × Int) :=
  if manualEntrySchemaOK matchNumber placement kills then
    some (placement, kills, calculatePoints placement kills)
  else
    none

/-- The validation of `handleSubmit` in `ManualPointsEntry.tsx`: it
rejects `placement < 1 || placement > 18`, `kills < 0` and
`matchNum < 1` — there is no upper cap on kills on this path. -/
def manualPointsEntryCheck (matchNumber placement kills : Int) : Bool :=
  1 ≤ placement && placement ≤ 18 && 0 ≤ kills && 1 ≤ matchNumber

/-- The persist decision of `handleSubmit` in `ManualPointsEntry.tsx`:
on passing its checks, the row is inserted with the precomputed
`calculatedPoints = (PLACEMENT_POINTS[placement] || 0) +
kills * KILL_POINTS`. -/
def manualPointsEntryPersist (matchNumber placement kills : Int) :
    Option (Int × Int × Int) :=
  if manualPointsEntryCheck matchNumber placement kills then
    some (placement, kills, PLACEMENT_POINTS_TS placement + kills * KILL_POINTS)
  else
    none

/-- The manual-entry insert (`ManualPointsEntry.tsx`): points are
precomputed as `(PLACEMENT_POINTS[placement] || 0) + kills * KILL_POINTS`
and inserted together with placement and kills (`screenshot_url = null`). -/
def manualEntryRow (rid teamId : Nat) (placement kills : Int) : MatchRow :=
  { id := rid
    teamId := teamId
    placement := some placement
    kills := some kills
    points := some (PLACEMENT_POINTS_TS placement + kills * KILL_POINTS)
    screenshotUrl := none }

/-- A record is points-consistent when, whenever placement and kills are
both non-null, its stored points equal
`placementPoints(placement) + kills`. -/
def pointsConsistent (r : MatchRow) : Prop :=
  ∀ p k : Int, r.placement = some p → r.kills = some k →
    r.points = some (calculatePoints p k)

/-! ## Upload flow (`handleFileUpload` in the player submission page) -/

/-- Number of files the upload handler processes in one invocation, given
the team's current stored screenshot count and the number of selected
files: `remainingSlots = 12 - currentCount`; `remainingSlots <= 0` rejects
the whole upload; otherwise `maxFiles = Math.min(files.length,
remainingSlots, 4)` files are taken. -/
def filesProcessed (currentCount numFiles : Nat) : Nat :=
  let remainingSlots : Int := 12 - (currentCount : Int)
  if remainingSlots ≤ 0 then 0
  else min numFiles (min remainingSlots.toNat 4)

/-- Observable storage events of the per-file upload flow. -/
inductive UploadEvent where
  | insertRecord (row : MatchRow)
  | invokeAnalysis (url : String)
  | updateRecord (rid : Nat) (placement kills points : Int)
deriving Repr, DecidableEq

/-- Per-file portion of `handleFileUpload` combined with the edge
function it invokes: the match row is inserted with only `team_id` and
`screenshot_url` set (placement, kills, points null), then the analysis is
invoked; only a successful extraction issues the record update.  An
extraction error makes the edge function return HTTP 500 before touching
the row, so the row keeps its null fields. -/
def uploadOneFlow (rid teamId : Nat) (url : String)
    (outcomes : Nat → AIOutcome) : List UploadEvent × MatchRow :=
  let row0 : MatchRow :=
    { id := rid, teamId := teamId, placement := none, kills := none,
      points := none, screenshotUrl := some url }
  match (analyzeWithRetry outcomes 3).result with
  | .ok (p, k) =>
    ([.insertRecord row0, .invokeAnalysis url,
      .updateRecord rid p k (PLACEMENT_POINTS_TS p + k)],
     edgePersistUpdate p k row0)
  | .error _ =>
    ([.insertRecord row0, .invokeAnalysis url], row0)

/-! ## Database state and the recompute trigger -/

/-- Database state: the `match_screenshots` rows and, per team id, the
stored `teams` aggregate row. -/
structure DBState where
  rows : List MatchRow
  teams : Nat → TeamStats

/-- The rows belonging to one team (`WHERE team_id = p_team_id`). -/
def teamRows (rows : List MatchRow) (t : Nat) : List MatchRow :=
  rows.filter (fun r => r.teamId == t)

/-- `recalculate_team_stats(t)` run against the current rows: overwrites
team `t`'s aggregate row with the recomputed values. -/
def applyRecalcTrigger (st : DBState) (t : Nat) : DBState :=
  { st with
    teams := fun x => if x = t then recalculate_team_stats (teamRows st.rows t) else st.teams x }

/-- Insert of a match row followed by the AFTER INSERT row trigger
`trg_recalculate_team_stats`, which recomputes `NEW.team_id`. -/
def dbInsert (st : DBState) (r : MatchRow) : DBState :=
  applyRecalcTrigger { st with rows := st.rows ++ [r] } r.teamId

/-- The row update applied by `dbUpdate` to the row with the matching id. -/
def updRowFn (rid : Nat) (p k pts : Option Int) (r : MatchRow) : MatchRow :=
  if r.id == rid then { r with placement := p, kills := k, points := pts } else r

/-- Update of the placement/kills/points of the row with id `rid`,
followed by the AFTER UPDATE row trigger (recomputing `NEW.team_id`; the
team id itself is never changed by these updates).  If no row matches,
nothing fires. -/
def dbUpdate (st : DBState) (rid : Nat) (p k pts : Option Int) : DBState :=
  let rows2 := st.rows.map (updRowFn rid p k pts)
  match st.rows.find? (fun r => r.id == rid) with
  | none => { st with rows := rows2 }
  | some r0 => applyRecalcTrigger { st with rows := rows2 } r0.teamId

/-- Delete of the row with id `rid` (the admin delete path issues exactly
this one statement), followed by the AFTER DELETE row trigger, which
recomputes `OLD.team_id`.  If no row matches, nothing fires. -/
def dbDelete (st : DBState) (rid : Nat) : DBState :=
  let rows2 := st.rows.filter (fun r => r.id != rid)
  match st.rows.find? (fun r => r.id == rid) with
  | none => { st with rows := rows2 }
  | some r0 => applyRecalcTrigger { st with rows := rows2 } r0.teamId

/-- Row ids are unique (`id` is the primary key of `match_screenshots`). -/
def uniqueIds (rows : List MatchRow) : Prop :=
  ∀ r1 ∈ rows, ∀ r2 ∈ rows, r1.id = r2.id → r1 = r2

/-- The settled-state invariant: every team's stored aggregate equals the
full recomputation over its current rows. -/
def statsConsistent (st : DBState) : Prop :=
  ∀ t, st.teams t = recalculate_team_stats (teamRows st.rows t)

/-! ## Helper lemmas -/

theorem calculatePoints_zero_kills (p : Int) :
    calculatePoints p 0 = PLACEMENT_POINTS_TS p := by
  simp [calculatePoints]


theorem runAttempts_success_step (outcomes : Nat → AIOutcome) (a m : Nat)
    (le : Option AIError) (p k : Int) (ho : outcomes a = .success p k) :
    runAttempts outcomes a (m + 1) le =
      { attemptsMade := 1, delays := [], result := .ok (p, k) } := by
  simp [runAttempts, ho]

theorem runAttempts_fail_step (outcomes : Nat → AIOutcome) (a m : Nat)
    (le : Option AIError) (ho : (outcomes a).isSuccess = false) :
    runAttempts outcomes a (m + 1) le =
      { attemptsMade :=
          (runAttempts outcomes (a + 1) m (some (errOfOutcome (outcomes a)))).attemptsMade + 1
        delays :=
          500 * (a + 1) ::
            (runAttempts outcomes (a + 1) m (some (errOfOutcome (outcomes a)))).delays
        result :=
          (runAttempts outcomes (a + 1) m (some (errOfOutcome (outcomes a)))).result } := by
  cases ho2 : outcomes a with
  | success p k => rw [ho2] at ho; simp [AIOutcome.isSuccess] at ho
  | noToolCall => simp [runAttempts, ho2]
  | http s => simp [runAttempts, ho2]
  | netError => simp [runAttempts, ho2]

theorem runAttempts_attempts_le (outcomes : Nat → AIOutcome) :
    ∀ n a le, (runAttempts outcomes a n le).attemptsMade ≤ n := by
  intro n
  induction n with
  | zero => intro a le; simp [runAttempts]
  | succ m ih =>
    intro a le
    by_cases hs : (outcomes a).isSuccess = true
    · cases ho : outcomes a with
      | success p k =>
        rw [runAttempts_success_step outcomes a m le p k ho]
        show 1 ≤ m + 1
        omega
      | noToolCall => rw [ho] at hs; simp [AIOutcome.isSuccess] at hs
      | http s => rw [ho] at hs; simp [AIOutcome.isSuccess] at hs
      | netError => rw [ho] at hs; simp [AIOutcome.isSuccess] at hs
    · rw [runAttempts_fail_step outcomes a m le (by simpa using hs)]
      have := ih (a + 1) (some (errOfOutcome (outcomes a)))
      simp only []
      omega

theorem runAttempts_delays_spacing (outcomes : Nat → AIOutcome) :
    ∀ n a le i x, ((runAttempts outcomes a n le).delays)[i]? = some x →
      x = 500 * (a + i + 1) := by
  intro n
  induction n with
  | zero => intro a le i x hx; simp [runAttempts] at hx
  | succ m ih =>
    intro a le i x hx
    by_cases hs : (outcomes a).isSuccess = true
    · cases ho : outcomes a with
      | success p k => rw [runAttempts_success_step outcomes a m le p k ho] at hx; simp at hx
      | noToolCall => rw [ho] at hs; simp [AIOutcome.isSuccess] at hs
      | http s => rw [ho] at hs; simp [AIOutcome.isSuccess] at hs
      | netError => rw [ho] at hs; simp [AIOutcome.isSuccess] at hs
    · rw [runAttempts_fail_step outcomes a m le (by simpa using hs)] at hx
      match i, hx with
      | 0, hx =>
        simp only [List.getElem?_cons_zero, Option.some.injEq] at hx
        omega
      | i + 1, hx =>
        simp only [List.getElem?_cons_succ] at hx
        have := ih (a + 1) (some (errOfOutcome (outcomes a))) i x hx
        omega

theorem runAttempts_all_fail (outcomes : Nat → AIOutcome) :
    ∀ n a le, 0 < n → (∀ i, i < n → (outcomes (a + i)).isSuccess = false) →
      (runAttempts outcomes a n le).attemptsMade = n ∧
      (runAttempts outcomes a n le).result = .error (errOfOutcome (outcomes (a + n - 1))) := by
  intro n
  induction n with
  | zero => intro a le h; omega
  | succ m ih =>
    intro a le _ hfail
    have h0 : (outcomes a).isSuccess = false := by simpa using hfail 0 (Nat.succ_pos m)
    rw [runAttempts_fail_step outcomes a m le h0]
    rcases Nat.eq_zero_or_pos m with hm | hm
    · subst hm
      simp [runAttempts]
    · have hrest := ih (a + 1) (some (errOfOutcome (outcomes a))) hm
        (fun i hi => by
          have := hfail (i + 1) (by omega)
          have harith : a + (i + 1) = a + 1 + i := by omega
          rwa [harith] at this)
      refine ⟨by rw [hrest.1], ?_⟩
      have harith : a + 1 + m - 1 = a + (m + 1) - 1 := by omega
      simp only []
      rw [hrest.2, harith]

/-! ## Claim theorems -/

/-- C7: `placementPoints` is a total function on the integers equal to the
table {1:10, 2:6, 3:5, 4:4, 5:3, 6:2, 7:1, 8:1} and 0 for every other
integer, and the TypeScript edge-function implementation and the SQL
implementation compute the identical mapping for every integer input
(sample points: 8 ↦ 1, 9 ↦ 0, 0 ↦ 0, -1 ↦ 0). -/
theorem placement_points_table_exact_and_identical :
    (∀ p : Int, PLACEMENT_POINTS_TS p = specPlacementTable p) ∧
    (∀ p : Int, calculate_placement_points (some p) = PLACEMENT_POINTS_TS p) ∧
    PLACEMENT_POINTS_TS 8 = 1 ∧ PLACEMENT_POINTS_TS 9 = 0 ∧
    PLACEMENT_POINTS_TS 0 = 0 ∧ PLACEMENT_POINTS_TS (-1) = 0 := by
  refine ⟨?_, fun p => rfl, by decide, by decide, by decide, by decide⟩
  intro p
  by_cases h1 : p = 1
  · subst h1; decide
  by_cases h2 : p = 2
  · subst h2; decide
  by_cases h3 : p = 3
  · subst h3; decide
  by_cases h4 : p = 4
  · subst h4; decide
  by_cases h5 : p = 5
  · subst h5; decide
  by_cases h6 : p = 6
  · subst h6; decide
  by_cases h7 : p = 7
  · subst h7; decide
  by_cases h8 : p = 8
  · subst h8; decide
  have e1 : (p == (1 : Int)) = false := beq_eq_false_iff_ne.mpr h1
  have e2 : (p == (2 : Int)) = false := beq_eq_false_iff_ne.mpr h2
  have e3 : (p == (3 : Int)) = false := beq_eq_false_iff_ne.mpr h3
  have e4 : (p == (4 : Int)) = false := beq_eq_false_iff_ne.mpr h4
  have e5 : (p == (5 : Int)) = false := beq_eq_false_iff_ne.mpr h5
  have e6 : (p == (6 : Int)) = false := beq_eq_false_iff_ne.mpr h6
  have e7 : (p == (7 : Int)) = false := beq_eq_false_iff_ne.mpr h7
  have e8 : (p == (8 : Int)) = false := beq_eq_false_iff_ne.mpr h8
  simp [PLACEMENT_POINTS_TS, specPlacementTable, List.lookup, h1, h2, h3, h4, h5, h6, h7, h8,
    e1, e2, e3, e4, e5, e6, e7, e8]

/-- C4 (code bug witness): the claim — and the code's own log message
"AI gateway error (non-retryable)" — say a non-2xx status outside
{429, 402, 5xx} fails immediately with no further attempt, and that a 2xx
response without a tool call is a hard, unretried failure.  In the source,
however, both failures are raised by a `throw` *inside* the `try` block,
so the surrounding `catch` records them in `lastError` and falls through
to the backoff: a constant HTTP 400 is attempted 3 times before the error
surfaces, and so is a constant missing-tool-call response, exactly like
the transient 429. -/
theorem nonretryable_status_is_retried_anyway :
    retryableStatus 400 = false ∧
    (analyzeWithRetry (fun _ => AIOutcome.http 400) 3).attemptsMade = 3 ∧
    (analyzeWithRetry (fun _ => AIOutcome.http 400) 3).result =
      .error (AIError.http 400) ∧
    (analyzeWithRetry (fun _ => AIOutcome.noToolCall) 3).attemptsMade = 3 ∧
    (analyzeWithRetry (fun _ => AIOutcome.noToolCall) 3).result =
      .error AIError.noToolCall ∧
    retryableStatus 429 = true ∧
    (analyzeWithRetry (fun _ => AIOutcome.http 429) 3).attemptsMade = 3 := by
  exact ⟨rfl, rfl, rfl, rfl, rfl, rfl, rfl⟩

/-- C9: `analyzeWithRetry` makes at most 3 attempts; the backoff slept
after the n-th failed attempt (1-based) is `n * 500` ms; and when every
attempt fails, the loop makes exactly 3 attempts and surfaces the error of
the last attempt. -/
theorem analyzeWithRetry_budget_backoff_lastError (outcomes : Nat → AIOutcome) :
    (analyzeWithRetry outcomes 3).attemptsMade ≤ 3 ∧
    (∀ i x, ((analyzeWithRetry outcomes 3).delays)[i]? = some x → x = 500 * (i + 1)) ∧
    ((∀ i, i < 3 → (outcomes i).isSuccess = false) →
      (analyzeWithRetry outcomes 3).attemptsMade = 3 ∧
      (analyzeWithRetry outcomes 3).result = .error (errOfOutcome (outcomes 2))) := by
  refine ⟨runAttempts_attempts_le outcomes 3 0 none, ?_, ?_⟩
  · intro i x hx
    have := runAttempts_delays_spacing outcomes 3 0 none i x hx
    omega
  · intro hfail
    have h := runAttempts_all_fail outcomes 3 0 none (by omega)
      (fun i hi => by simpa using hfail i hi)
    exact ⟨h.1, h.2⟩

/-- Witness for C9 at the concrete all-fail outcome sequence
`503, 429, 402`: three attempts, backoffs 500/1000/1500 ms, and the
surfaced error is the one from the last (402) attempt. -/
theorem analyzeWithRetry_budget_backoff_lastError_witness :
    (analyzeWithRetry
        (fun i => if i = 0 then AIOutcome.http 503
                  else if i = 1 then AIOutcome.http 429
                  else AIOutcome.http 402) 3).attemptsMade = 3 ∧
    (analyzeWithRetry
        (fun i => if i = 0 then AIOutcome.http 503
                  else if i = 1 then AIOutcome.http 429
                  else AIOutcome.http 402) 3).result = .error (AIError.http 402) ∧
    (500 : Nat) = 500 * (0 + 1) := by
  have h := analyzeWithRetry_budget_backoff_lastError
    (fun i => if i = 0 then AIOutcome.http 503
              else if i = 1 then AIOutcome.http 429
              else AIOutcome.http 402)
  have hall := h.2.2 (by decide)
  have hd := h.2.1 0 500 rfl
  exact ⟨hall.1, hall.2, hd⟩

/-- A single stored row whose placement/kills are set but whose stored
points field is null — the state C2 quantifies over. -/
def rowWithNullPoints : MatchRow :=
  { id := 1, teamId := 1, placement := some 1, kills := some 3,
    points := none, screenshotUrl := none }

/-- C2 counterexample: the edge function's recompute derives
`total_points` from the stored per-record `points` (null as 0), not from
`placement_points + kill_points`.  For a team whose only record has
placement 1, kills 3 and a null stored points field, the recomputed
aggregate has `total_points = 0` but `placement_points + kill_points =
13`, so the claimed invariant fails on the edge-function recompute path. -/
theorem edge_total_points_invariant_counterexample :
    (edgeRecalcTeamStats [rowWithNullPoints]).total_points ≠
      (edgeRecalcTeamStats [rowWithNullPoints]).placement_points +
        (edgeRecalcTeamStats [rowWithNullPoints]).kill_points ∧
    (adminRecalcTeamStats [rowWithNullPoints]).total_points ≠
      (adminRecalcTeamStats [rowWithNullPoints]).placement_points +
        (adminRecalcTeamStats [rowWithNullPoints]).kill_points := by
  constructor <;> decide

/-- C2 amended: the SQL trigger recompute always writes
`total_points = placement_points + kill_points`; the edge-function and
admin recompute paths write `total_points` as the sum of the stored
per-record `points` (null as 0), which coincides with
`placement_points + kill_points` whenever every record's stored points
field is consistent with its placement and kills (in particular in every
state produced only by writes that set points together with placement and
kills), but not when some record's points is null or inconsistent. -/
theorem total_points_invariant_amended (rs : List MatchRow) :
    ((recalculate_team_stats rs).total_points =
      (recalculate_team_stats rs).placement_points +
        (recalculate_team_stats rs).kill_points) ∧
    ((∀ r ∈ rs, jsOr0 r.points = PLACEMENT_POINTS_TS (jsOr0 r.placement) + jsOr0 r.kills) →
      (edgeRecalcTeamStats rs).total_points =
        (edgeRecalcTeamStats rs).placement_points +
          (edgeRecalcTeamStats rs).kill_points ∧
      (adminRecalcTeamStats rs).total_points =
        (adminRecalcTeamStats rs).placement_points +
          (adminRecalcTeamStats rs).kill_points) := by
  constructor
  · rfl
  · intro hcons
    have key : (rs.map (fun s => jsOr0 s.points)).sum =
        (rs.map (fun s => PLACEMENT_POINTS_TS (jsOr0 s.placement))).sum +
          (rs.map (fun s => jsOr0 s.kills)).sum := by
      induction rs with
      | nil => simp
      | cons r rest ih =>
        have hr := hcons r (List.mem_cons_self r rest)
        have hrest := ih (fun x hx => hcons x (List.mem_cons_of_mem r hx))
        simp only [List.map_cons, List.sum_cons, hr, hrest]
        ring
    constructor
    · simpa [edgeRecalcTeamStats] using key
    · have : (rs.map (fun s => calculatePoints (jsOr0 s.placement) 0)).sum =
          (rs.map (fun s => PLACEMENT_POINTS_TS (jsOr0 s.placement))).sum := by
        simp [calculatePoints_zero_kills]
      simpa [adminRecalcTeamStats, this] using key

/-- Witness for the amended C2 at a concrete consistent record set. -/
theorem total_points_invariant_amended_witness :
    (edgeRecalcTeamStats
        [{ id := 1, teamId := 1, placement := some 1, kills := some 3,
           points := some 13, screenshotUrl := none }]).total_points =
      (edgeRecalcTeamStats
        [{ id := 1, teamId := 1, placement := some 1, kills := some 3,
           points := some 13, screenshotUrl := none }]).placement_points +
        (edgeRecalcTeamStats
          [{ id := 1, teamId := 1, placement := some 1, kills := some 3,
             points := some 13, screenshotUrl := none }]).kill_points := by
  have h := total_points_invariant_amended
    [{ id := 1, teamId := 1, placement := some 1, kills := some 3,
       points := some 13, screenshotUrl := none }]
  exact (h.2 (by decide)).1

/-- The spec's example record set:
`[{placement: 1, kills: 3}, {placement: 2, kills: 1}]`, with the stored
per-record points the write paths would have produced (13 and 7). -/
def exampleRecords : List MatchRow :=
  [{ id := 1, teamId := 1, placement := some 1, kills := some 3,
     points := some 13, screenshotUrl := none },
   { id := 2, teamId := 1, placement := some 2, kills := some 1,
     points := some 7, screenshotUrl := none }]

/-- A pending row: null placement, kills and points. -/
def pendingRow : MatchRow :=
  { id := 3, teamId := 1, placement := none, kills := none,
    points := none, screenshotUrl := some "pending.png" }

/-- C1: both team recompute implementations produce
`matchesPlayed` = number of records, `totalKills` = sum of kills (null as
0), `killPoints` = `totalKills`, `placementPoints` = sum of
placement-table points (null placement contributing 0), and
`firstPlaceWins` = number of records with placement 1; a record with null
placement and kills changes no aggregate field except `matchesPlayed`
(for the SQL recompute this covers all six fields, `totalPoints`
included); and on the spec's example set the result is matchesPlayed 2,
totalKills 4, killPoints 4, placementPoints 16, firstPlaceWins 1,
totalPoints 20. -/
theorem team_recompute_aggregates (rs : List MatchRow) (r : MatchRow) :
    ((recalculate_team_stats rs).matches_played = rs.length ∧
     (recalculate_team_stats rs).total_kills =
       (rs.map (fun x => x.kills.getD 0)).sum ∧
     (recalculate_team_stats rs).kill_points = (recalculate_team_stats rs).total_kills ∧
     (recalculate_team_stats rs).placement_points =
       (rs.map (fun x => calculate_placement_points x.placement)).sum ∧
     (recalculate_team_stats rs).first_place_wins =
       (rs.filter (fun x => x.placement == some 1)).length) ∧
    ((edgeRecalcTeamStats rs).matches_played = rs.length ∧
     (edgeRecalcTeamStats rs).total_kills = (rs.map (fun x => jsOr0 x.kills)).sum ∧
     (edgeRecalcTeamStats rs).kill_points = (edgeRecalcTeamStats rs).total_kills ∧
     (edgeRecalcTeamStats rs).placement_points =
       (rs.map (fun x => PLACEMENT_POINTS_TS (jsOr0 x.placement))).sum ∧
     (edgeRecalcTeamStats rs).first_place_wins =
       (rs.filter (fun x => x.placement == some 1)).length) ∧
    (r.placement = none → r.kills = none →
      (recalculate_team_stats (r :: rs) =
        { recalculate_team_stats rs with
          matches_played := (recalculate_team_stats rs).matches_played + 1 } ∧
       (edgeRecalcTeamStats (r :: rs)).placement_points =
         (edgeRecalcTeamStats rs).placement_points ∧
       (edgeRecalcTeamStats (r :: rs)).total_kills =
         (edgeRecalcTeamStats rs).total_kills ∧
       (edgeRecalcTeamStats (r :: rs)).kill_points =
         (edgeRecalcTeamStats rs).kill_points ∧
       (edgeRecalcTeamStats (r :: rs)).first_place_wins =
         (edgeRecalcTeamStats rs).first_place_wins ∧
       (edgeRecalcTeamStats (r :: rs)).matches_played =
         (edgeRecalcTeamStats rs).matches_played + 1)) ∧
    recalculate_team_stats exampleRecords =
      { total_points := 20, placement_points := 16, kill_points := 4,
        total_kills := 4, matches_played := 2, first_place_wins := 1 } ∧
    edgeRecalcTeamStats exampleRecords =
      { total_points := 20, placement_points := 16, kill_points := 4,
        total_kills := 4, matches_played := 2, first_place_wins := 1 } := by
  refine ⟨⟨rfl, rfl, rfl, rfl, rfl⟩, ⟨rfl, rfl, rfl, rfl, rfl⟩, ?_, by decide, by decide⟩
  intro hp hk
  have hfilter : ((r :: rs).filter (fun x => x.placement == some 1)) =
      rs.filter (fun x => x.placement == some 1) := by
    simp [List.filter_cons, hp]
  refine ⟨?_, ?_, ?_, ?_, ?_, ?_⟩
  · simp [recalculate_team_stats, hp, hk, calculate_placement_points, hfilter]
  · simp [edgeRecalcTeamStats, hp, jsOr0, PLACEMENT_POINTS_TS]
  · simp [edgeRecalcTeamStats, hk, jsOr0]
  · simp [edgeRecalcTeamStats, hk, jsOr0]
  · simp [edgeRecalcTeamStats, hfilter]
  · simp [edgeRecalcTeamStats]

/-- Witness for C1: appending a fully-null pending row to the example set
leaves every SQL-recomputed aggregate unchanged except `matchesPlayed`. -/
theorem team_recompute_aggregates_witness :
    recalculate_team_stats (pendingRow :: exampleRecords) =
      { total_points := 20, placement_points := 16, kill_points := 4,
        total_kills := 4, matches_played := 3, first_place_wins := 1 } := by
  have h := (team_recompute_aggregates exampleRecords pendingRow).2.2.1 rfl rfl
  rw [h.1]
  decide

/-- C5 counterexample: the claim says an extracted pair is checked against
the manual-entry bounds (placement in [1, 18], kills in [0, 50]) before
being persisted, with out-of-range extractions rejected or flagged.  The
edge function's persist step applies no such check: the extracted pair
`{placement: 25, kills: 60}` is outside the bounds yet is still persisted
(with placement points defaulting to 0, so points 60). -/
theorem extraction_persists_out_of_range :
    (edgeFnPersistDecision 25 60).isSome = true ∧
    matchDataSchemaOK 25 60 = false ∧
    edgeFnPersistDecision 25 60 = some (25, 60, 60) := by
  exact ⟨rfl, rfl, rfl⟩

/-- C5 amended: validation before persisting differs by path.  The admin
edit dialog writes exactly when its zod bounds hold (placement in
[1, 18], kills in [0, 50]), and so does the screenshot-verification
manual-entry dialog (additionally matchNumber in [1, 100]); the
`ManualPointsEntry` manual path checks only placement in [1, 18],
kills ≥ 0 and matchNumber ≥ 1 — it has no 50 cap on kills, so it
persists kills = 100, which the zod bounds reject; and the AI extraction
persist path applies no bounds validation at all, storing every
extracted pair. -/
theorem extraction_validation_amended (matchNumber placement kills : Int) :
    ((adminEditPersist placement kills).isSome = true ↔
      matchDataSchemaOK placement kills = true) ∧
    (∀ u, adminEditPersist placement kills = some u →
      u = (placement, kills, calculatePoints placement kills)) ∧
    ((verifManualEntryPersist matchNumber placement kills).isSome = true ↔
      manualEntrySchemaOK matchNumber placement kills = true) ∧
    ((manualPointsEntryPersist matchNumber placement kills).isSome = true ↔
      manualPointsEntryCheck matchNumber placement kills = true) ∧
    (manualPointsEntryPersist 1 5 100).isSome = true ∧
    matchDataSchemaOK 5 100 = false ∧
    manualEntrySchemaOK 1 5 100 = false ∧
    (edgeFnPersistDecision placement kills).isSome = true := by
  refine ⟨?_, ?_, ?_, ?_, by decide, by decide, by decide, rfl⟩
  · unfold adminEditPersist
    by_cases h : matchDataSchemaOK placement kills
    · simp [h]
    · simp [h]
  · intro u hu
    unfold adminEditPersist at hu
    by_cases h : matchDataSchemaOK placement kills
    · simp [h] at hu
      exact hu.symm
    · simp [h] at hu
  · unfold verifManualEntryPersist
    by_cases h : manualEntrySchemaOK matchNumber placement kills
    · simp [h]
    · simp [h]
  · unfold manualPointsEntryPersist
    by_cases h : manualPointsEntryCheck matchNumber placement kills
    · simp [h]
    · simp [h]

/-- Witness for the amended C5 at concrete inputs: an in-range admin
edit, the uncapped kills = 100 accepted by `ManualPointsEntry`, and an
out-of-range pair persisted by the extraction path. -/
theorem extraction_validation_amended_witness :
    matchDataSchemaOK 5 10 = true ∧
    manualPointsEntryCheck 1 5 100 = true ∧
    (edgeFnPersistDecision 25 60).isSome = true := by
  have h1 := (extraction_validation_amended 1 5 10).1.mp (by decide)
  have h2 := (extraction_validation_amended 1 5 100).2.2.2.1.mp (by decide)
  have h3 := (extraction_validation_amended 1 25 60).2.2.2.2.2.2.2
  exact ⟨h1, h2, h3⟩

/-- C8: every path that writes a record's points writes exactly
`placementPoints(placement) + kills` (kill multiplier 1): the edge
function's extraction persist, the admin edit (when its validation
passes), and the manual-entry insert; each of these writes placement,
kills and points together, and the rows they produce satisfy the
record-level invariant that non-null placement and kills come with
`points = placementPoints(placement) + kills`.  A fresh upload row (all
three fields null) satisfies the invariant vacuously. -/
theorem record_points_formula_all_paths (p k : Int) (r : MatchRow)
    (rid teamId : Nat) (url : String) :
    (edgeFnPersistDecision p k = some (p, k, calculatePoints p k)) ∧
    (∀ u, adminEditPersist p k = some u → u.2.2 = calculatePoints p k) ∧
    ((manualEntryRow rid teamId p k).points = some (calculatePoints p k)) ∧
    pointsConsistent (edgePersistUpdate p k r) ∧
    pointsConsistent (manualEntryRow rid teamId p k) ∧
    pointsConsistent
      { id := rid, teamId := teamId, placement := none, kills := none,
        points := none, screenshotUrl := some url } ∧
    calculatePoints 1 5 = 15 ∧ calculatePoints 9 3 = 3 ∧ calculatePoints 1 0 = 10 := by
  refine ⟨?_, ?_, ?_, ?_, ?_, ?_, by decide, by decide, by decide⟩
  · simp [edgeFnPersistDecision, calculatePoints, KILL_POINTS]
  · intro u hu
    unfold adminEditPersist at hu
    by_cases h : matchDataSchemaOK p k
    · simp [h] at hu
      rw [← hu]
    · simp [h] at hu
  · simp [manualEntryRow, calculatePoints, KILL_POINTS]
  · intro p2 k2 hp2 hk2
    simp only [edgePersistUpdate] at hp2 hk2 ⊢
    have hp3 : p2 = p := by simpa using hp2.symm
    have hk3 : k2 = k := by simpa using hk2.symm
    subst hp3; subst hk3
    simp [calculatePoints, KILL_POINTS]
  · intro p2 k2 hp2 hk2
    simp only [manualEntryRow] at hp2 hk2 ⊢
    have hp3 : p2 = p := by simpa using hp2.symm
    have hk3 : k2 = k := by simpa using hk2.symm
    subst hp3; subst hk3
    simp [calculatePoints]
  · intro p2 k2 hp2 _
    simp at hp2

/-- Witness for C8 at a concrete write: the admin edit of placement 1,
kills 5 stores points 15, and the persisted edge row for the same pair is
points-consistent. -/
theorem record_points_formula_all_paths_witness :
    (edgeFnPersistDecision 1 5 = some (1, 5, calculatePoints 1 5)) ∧
    calculatePoints 1 5 = 15 := by
  have h := record_points_formula_all_paths 1 5 pendingRow 9 9 "w.png"
  exact ⟨h.1, h.2.2.2.2.2.2.1⟩

/-- C10: the upload handler rejects the batch outright (processing no
file) when the team already has 12 or more stored screenshots, and
otherwise processes exactly `min(selected, 12 - count, 4)` files — in
particular never more than 4 and never more than the remaining slots. -/
theorem upload_limit_enforced (currentCount numFiles : Nat) :
    (12 ≤ currentCount → filesProcessed currentCount numFiles = 0) ∧
    (currentCount < 12 →
      filesProcessed currentCount numFiles =
        min numFiles (min (12 - currentCount) 4) ∧
      filesProcessed currentCount numFiles ≤ 4 ∧
      filesProcessed currentCount numFiles ≤ 12 - currentCount ∧
      filesProcessed currentCount numFiles ≤ numFiles) := by
  constructor
  · intro h
    unfold filesProcessed
    rw [if_pos (by omega)]
  · intro h
    unfold filesProcessed
    rw [if_neg (by omega)]
    have ht : ((12 - (currentCount : Int))).toNat = 12 - currentCount := by omega
    rw [ht]
    omega

/-- Witness for C10: a team with 10 stored screenshots selecting 6 files
gets exactly 2 processed; a team with 12 gets none. -/
theorem upload_limit_enforced_witness :
    filesProcessed 10 6 = 2 ∧ filesProcessed 12 6 = 0 := by
  have h10 := (upload_limit_enforced 10 6).2 (by omega)
  have h12 := (upload_limit_enforced 12 6).1 (by omega)
  refine ⟨by rw [h10.1]; decide, h12⟩

/-- C6: in the per-file upload flow the match row is inserted (null
placement/kills/points, the storage URL set) strictly before the analysis
is invoked, whatever the extraction outcome; and when extraction fails —
in particular when every one of the 3 attempts fails, exhausting the
retry budget — no record update is emitted and the row still has null
placement, kills and points with its screenshot URL intact, so the upload
is not lost. -/
theorem upload_insert_before_analyze_and_failure_leaves_row
    (rid teamId : Nat) (url : String) (outcomes : Nat → AIOutcome) :
    (∃ evs, (uploadOneFlow rid teamId url outcomes).1 =
      UploadEvent.insertRecord
          { id := rid, teamId := teamId, placement := none, kills := none,
            points := none, screenshotUrl := some url } ::
        UploadEvent.invokeAnalysis url :: evs) ∧
    (∀ e, (analyzeWithRetry outcomes 3).result = .error e →
      (∀ r2 p2 k2 pts2,
        UploadEvent.updateRecord r2 p2 k2 pts2 ∉ (uploadOneFlow rid teamId url outcomes).1) ∧
      (uploadOneFlow rid teamId url outcomes).2.placement = none ∧
      (uploadOneFlow rid teamId url outcomes).2.kills = none ∧
      (uploadOneFlow rid teamId url outcomes).2.points = none ∧
      (uploadOneFlow rid teamId url outcomes).2.screenshotUrl = some url) ∧
    ((∀ i, i < 3 → (outcomes i).isSuccess = false) →
      (uploadOneFlow rid teamId url outcomes).2.placement = none ∧
      (uploadOneFlow rid teamId url outcomes).2.kills = none ∧
      (uploadOneFlow rid teamId url outcomes).2.points = none) := by
  refine ⟨?_, ?_, ?_⟩
  · unfold uploadOneFlow
    cases hres : (analyzeWithRetry outcomes 3).result with
    | ok v =>
      refine ⟨[UploadEvent.updateRecord rid v.1 v.2 (PLACEMENT_POINTS_TS v.1 + v.2)], ?_⟩
      simp [hres]
    | error e => exact ⟨[], by simp [hres]⟩
  · intro e hres
    unfold uploadOneFlow
    rw [hres]
    refine ⟨?_, rfl, rfl, rfl, rfl⟩
    intro r2 p2 k2 pts2 hmem
    simp at hmem
  · intro hfail
    have hres : (analyzeWithRetry outcomes 3).result =
        .error (errOfOutcome (outcomes 2)) :=
      (runAttempts_all_fail outcomes 3 0 none (by omega)
        (fun i hi => by simpa using hfail i hi)).2
    unfold uploadOneFlow
    rw [hres]
    exact ⟨rfl, rfl, rfl⟩

/-- Witness for C6 at a concrete all-fail outcome sequence: the flow
inserts then invokes analysis, emits no update, and the row keeps null
placement/kills/points. -/
theorem upload_insert_before_analyze_witness :
    (uploadOneFlow 7 4 "shot.png" (fun _ => AIOutcome.http 500)).1 =
      [UploadEvent.insertRecord
          { id := 7, teamId := 4, placement := none, kills := none,
            points := none, screenshotUrl := some "shot.png" },
        UploadEvent.invokeAnalysis "shot.png"] ∧
    (uploadOneFlow 7 4 "shot.png" (fun _ => AIOutcome.http 500)).2.placement = none ∧
    (uploadOneFlow 7 4 "shot.png" (fun _ => AIOutcome.http 500)).2.kills = none ∧
    (uploadOneFlow 7 4 "shot.png" (fun _ => AIOutcome.http 500)).2.points = none := by
  have h := upload_insert_before_analyze_and_failure_leaves_row 7 4 "shot.png"
    (fun _ => AIOutcome.http 500)
  have hp := h.2.2 (fun i _ => rfl)
  exact ⟨rfl, hp.1, hp.2.1, hp.2.2⟩

/-! ## C3: trigger-based recomputation helpers -/

theorem teamRows_append (rows : List MatchRow) (r : MatchRow) (t : Nat) :
    teamRows (rows ++ [r]) t =
      teamRows rows t ++ (if r.teamId == t then [r] else []) := by
  by_cases h : (r.teamId == t) = true
  · simp [teamRows, List.filter_append, List.filter_cons, h]
  · simp only [beq_eq_false_iff_ne, ne_eq, Bool.not_eq_true] at h
    simp [teamRows, List.filter_append, List.filter_cons, h]

theorem teamRows_map_preserving (f : MatchRow → MatchRow)
    (hf : ∀ x, (f x).teamId = x.teamId) (rows : List MatchRow) (t : Nat) :
    teamRows (rows.map f) t = (teamRows rows t).map f := by
  unfold teamRows
  rw [List.filter_map]
  congr 1
  apply List.filter_congr
  intro x _
  simp [Function.comp, hf]

theorem updRowFn_teamId (rid : Nat) (p k pts : Option Int) (x : MatchRow) :
    (updRowFn rid p k pts x).teamId = x.teamId := by
  unfold updRowFn
  by_cases h : (x.id == rid) = true
  · simp [h]
  · simp [h]

theorem teamRows_update_unaffected (rid : Nat) (p k pts : Option Int)
    (rows : List MatchRow) (t : Nat)
    (hno : ∀ x ∈ teamRows rows t, x.id ≠ rid) :
    teamRows (rows.map (updRowFn rid p k pts)) t = teamRows rows t := by
  rw [teamRows_map_preserving (updRowFn rid p k pts) (updRowFn_teamId rid p k pts) rows t]
  have hmap : (teamRows rows t).map (updRowFn rid p k pts) =
      (teamRows rows t).map id := by
    apply List.map_congr_left
    intro x hx
    have hxid := hno x hx
    unfold updRowFn
    simp [hxid]
  rw [hmap, List.map_id]

theorem teamRows_delete_unaffected (rid : Nat) (rows : List MatchRow) (t : Nat)
    (hno : ∀ x ∈ teamRows rows t, x.id ≠ rid) :
    teamRows (rows.filter (fun r => r.id != rid)) t = teamRows rows t := by
  unfold teamRows
  rw [List.filter_filter]
  apply List.filter_congr
  intro x hx
  by_cases hp : (x.teamId == t) = true
  · have hmem : x ∈ teamRows rows t := List.mem_filter.mpr ⟨hx, hp⟩
    have hxid := hno x hmem
    simp [hp, hxid]
  · simp at hp
    simp [hp]

theorem no_foreign_row_has_id (rows : List MatchRow) (rid : Nat) (r0 : MatchRow)
    (huniq : uniqueIds rows)
    (hf : rows.find? (fun r => r.id == rid) = some r0)
    (t : Nat) (ht : t ≠ r0.teamId) :
    ∀ x ∈ teamRows rows t, x.id ≠ rid := by
  intro x hx hxid
  have hx_mem : x ∈ rows := (List.mem_filter.mp hx).1
  have hx_t : (x.teamId == t) = true := (List.mem_filter.mp hx).2
  have hr0_mem : r0 ∈ rows := List.mem_of_find?_eq_some hf
  have hr0_id := List.find?_some hf
  have hid : x.id = r0.id := by
    simp only [beq_iff_eq] at hr0_id
    omega
  have hxr0 : x = r0 := huniq x hx_mem r0 hr0_mem hid
  subst hxr0
  simp at hx_t
  exact ht hx_t.symm

/-- C3: under unique row ids (the primary key) and starting from any
settled state whose team aggregates equal the recomputation over the
current rows, each of the three mutations — insert, placement/kills/points
update, and delete (the admin delete path issues only the delete; the
AFTER DELETE trigger covers it) — re-establishes that every team's six
derived fields equal the aggregate of its full current record set, so no
settled post-mutation state omits or double-counts the mutated record. -/
theorem trigger_recompute_preserves_consistency
    (st : DBState) (r : MatchRow) (rid : Nat) (p k pts : Option Int)
    (huniq : uniqueIds st.rows) (hcons : statsConsistent st) :
    statsConsistent (dbInsert st r) ∧
    statsConsistent (dbUpdate st rid p k pts) ∧
    statsConsistent (dbDelete st rid) := by
  refine ⟨?_, ?_, ?_⟩
  · -- insert
    intro t
    unfold dbInsert applyRecalcTrigger
    by_cases ht : t = r.teamId
    · simp [ht]
    · simp only [if_neg ht]
      rw [hcons t]
      congr 1
      rw [teamRows_append st.rows r t]
      have : (r.teamId == t) = false := by
        simp only [beq_eq_false_iff_ne, ne_eq]
        exact fun he => ht he.symm
      rw [this]
      simp
  · -- update
    intro t
    unfold dbUpdate
    cases hf : st.rows.find? (fun x => x.id == rid) with
    | none =>
      simp only []
      have hnone := List.find?_eq_none.mp hf
      have hmap : st.rows.map (updRowFn rid p k pts) = st.rows := by
        have : st.rows.map (updRowFn rid p k pts) = st.rows.map id := by
          apply List.map_congr_left
          intro x hx
          have hxid : ¬ (x.id == rid) = true := hnone x hx
          unfold updRowFn
          simp only [hxid]
          rfl
        rw [this, List.map_id]
      show st.teams t = recalculate_team_stats (teamRows (st.rows.map (updRowFn rid p k pts)) t)
      rw [hmap]
      exact hcons t
    | some r0 =>
      simp only []
      unfold applyRecalcTrigger
      by_cases ht : t = r0.teamId
      · simp [ht]
      · simp only [if_neg ht]
        rw [hcons t]
        congr 1
        exact (teamRows_update_unaffected rid p k pts st.rows t
          (no_foreign_row_has_id st.rows rid r0 huniq hf t ht)).symm
  · -- delete
    intro t
    unfold dbDelete
    cases hf : st.rows.find? (fun x => x.id == rid) with
    | none =>
      simp only []
      have hnone := List.find?_eq_none.mp hf
      have hfilter : st.rows.filter (fun x => x.id != rid) = st.rows := by
        apply List.filter_eq_self.mpr
        intro x hx
        have hxid : ¬ (x.id == rid) = true := hnone x hx
        simp only [bne_iff_ne, ne_eq]
        simpa using hxid
      show st.teams t = recalculate_team_stats (teamRows (st.rows.filter (fun x => x.id != rid)) t)
      rw [hfilter]
      exact hcons t
    | some r0 =>
      simp only []
      unfold applyRecalcTrigger
      by_cases ht : t = r0.teamId
      · simp [ht]
      · simp only [if_neg ht]
        rw [hcons t]
        congr 1
        exact (teamRows_delete_unaffected rid st.rows t
          (no_foreign_row_has_id st.rows rid r0 huniq hf t ht)).symm

/-- Witness for C3: starting from an empty, consistent database, inserting
a concrete row yields a state whose team aggregates all equal the
recomputation over the current rows. -/
theorem trigger_recompute_preserves_consistency_witness :
    statsConsistent
      (dbInsert { rows := [], teams := fun _ => recalculate_team_stats [] }
        { id := 1, teamId := 5, placement := some 1, kills := some 2,
          points := some 12, screenshotUrl := none }) := by
  have h := trigger_recompute_preserves_consistency
    { rows := [], teams := fun _ => recalculate_team_stats [] }
    { id := 1, teamId := 5, placement := some 1, kills := some 2,
      points := some 12, screenshotUrl := none }
    1 none none none
    (by intro r1 h1 r2 h2 he; cases h1)
    (by intro t; rfl)
  exact h.1
